import Mathlib

/-!
A shallow embedding of the parsing-and-search core of the EU5-Modding-Mcp
repository: the three format parsers of `scripts/convert_data.py`, the search
operations of `src/data_handler.py` (class `DataHandler`) and of
`scripts/data_searcher.py` (class `DataSearcher`), and the similarity ratio of
Python's `difflib.SequenceMatcher` used by the fuzzy name lookup.

Modelling choices:
* Python strings are `String` / `List Char`; case folding is ASCII.
* Python lists are `List`; the ordered name-index dict is an association list.
* Records (Python dicts) are a structure with optional fields; a dict key that
  a record may lack (`return_type`, `similarity`) is an `Option`, and the
  fallible subscript access `e['return_type']` is modelled with `Except`.
* Float similarity scores are exact rationals.
* The slice `l[:n]` (negative `n` included) is `pySlice`.
* Recursions that are not structural in the Python source carry a fuel
  argument always called with enough fuel, so every definition evaluates by
  kernel reduction.
-/

/-- The whitespace characters recognised by Python's `str.strip` (ASCII part). -/
def pyWs (c : Char) : Bool :=
  c == ' ' || c == '\t' || c == '\n' || c == '\r' || c == '\x0b' || c == '\x0c'

/-- `startsL pre l`: the list `l` begins with `pre` (Python `str.startswith`). -/
def startsL : List Char → List Char → Bool
  | [], _ => true
  | _ :: _, [] => false
  | p :: ps, c :: cs => p == c && startsL ps cs

/-- Python `str.lstrip()`. -/
def lstripL (l : List Char) : List Char := l.dropWhile pyWs

/-- Python `str.rstrip()`. -/
def rstripL (l : List Char) : List Char := (l.reverse.dropWhile pyWs).reverse

/-- Python `str.strip()`. -/
def stripL (l : List Char) : List Char := rstripL (lstripL l)

/-- ASCII lower-casing of one character (Python `str.lower`, ASCII part). -/
def lowerC (c : Char) : Char :=
  if 'A' ≤ c && c ≤ 'Z' then Char.ofNat (c.toNat + 32) else c

/-- Python `str.lower()` (ASCII part). -/
def lowerL (l : List Char) : List Char := l.map lowerC

/-- Worker for `splitOnL`.  The fuel bounds the number of characters consumed;
every call site passes the length of the input, which is always enough, so the
fuel-exhausted case is unreachable. -/
def splitOnGo (sep : List Char) : Nat → List Char → List Char → List (List Char)
  | _, [], acc => [acc.reverse]
  | 0, l, acc => [acc.reverse ++ l]
  | fuel + 1, c :: cs, acc =>
    if (!sep.isEmpty) && startsL sep (c :: cs) then
      acc.reverse :: splitOnGo sep fuel ((c :: cs).drop sep.length) []
    else
      splitOnGo sep fuel cs (c :: acc)

/-- Python `str.split(sep)` for a non-empty separator: leftmost,
non-overlapping occurrences. -/
def splitOnL (sep l : List Char) : List (List Char) := splitOnGo sep l.length l []

/-- Worker for `removeAllL`; same fuel convention as `splitOnGo`. -/
def removeAllGo (pat : List Char) : Nat → List Char → List Char
  | _, [] => []
  | 0, l => l
  | fuel + 1, c :: cs =>
    if (!pat.isEmpty) && startsL pat (c :: cs) then
      removeAllGo pat fuel ((c :: cs).drop pat.length)
    else
      c :: removeAllGo pat fuel cs

/-- Python `str.replace(pat, '')`: every occurrence of `pat` removed, scanning
left to right.  (The source only ever replaces with the empty string.) -/
def removeAllL (pat l : List Char) : List Char := removeAllGo pat l.length l

/-- Python `needle in hay` on strings: substring containment. -/
def containsSubL (needle : List Char) : List Char → Bool
  | [] => needle.isEmpty
  | c :: cs => startsL needle (c :: cs) || containsSubL needle cs

/-- Python `sep.join(parts)`. -/
def joinWithL (sep : List Char) : List (List Char) → List Char
  | [] => []
  | [x] => x
  | x :: y :: xs => x ++ sep ++ joinWithL sep (y :: xs)

/-- `str.strip()` on `String`. -/
def pyStrip (s : String) : String := ⟨stripL s.data⟩

/-- `str.rstrip()` on `String`. -/
def pyRstrip (s : String) : String := ⟨rstripL s.data⟩

/-- `str.lower()` on `String`. -/
def pyLower (s : String) : String := ⟨lowerL s.data⟩

/-- `str.split(sep)` on `String`. -/
def pySplit (s sep : String) : List String := (splitOnL sep.data s.data).map (⟨·⟩)

/-- `str.replace(pat, '')` on `String`. -/
def pyRemove (s pat : String) : String := ⟨removeAllL pat.data s.data⟩

/-- `str.startswith(pre)` on `String`. -/
def pyStarts (s pre : String) : Bool := startsL pre.data s.data

/-- `needle in hay` on `String`. -/
def pyIn (needle hay : String) : Bool := containsSubL needle.data hay.data

/-- The Python slice `l[:n]`, including its semantics for negative `n`
(`l[:-k]` is all of `l` but the last `k` elements). -/
def pySlice (l : List α) (n : Int) : List α :=
  if 0 ≤ n then l.take n.toNat else l.take (l.length - (-n).toNat)

/-- The normalized record: the union of the dict shapes built by the three
parsers of `scripts/convert_data.py` and consumed by the search code.  A key a
given record kind never carries keeps its Python default (`[]`, `''`) or is an
`Option` when code distinguishes its absence (`return_type`, `similarity`).
The `scopes` field models the `'scopes'` key read by
`DataHandler.get_data_by_scope` via `item.get('scopes', [])`; no parser writes
it. -/
structure Record where
  name : String
  description : String := ""
  type : String
  category : String := ""
  definition_type : Option String := none
  return_type : Option String := none
  args : List String := []
  supported_scopes : List String := []
  supported_targets : List String := []
  categories : List String := []
  scopes : List String := []
  similarity : Option ℚ := none
  deriving DecidableEq

/-- Word characters of the regex `\w` (ASCII approximation). -/
def wordC (c : Char) : Bool := c.isAlphanum || c == '_'

/-- Python `re.match(r'(\w+)\(\s*(.*?)\s*\)', first_line)` from
`parse_data_type_file`, reduced to its effective semantics: group 1 is the
maximal word prefix, which must be non-empty and directly followed by `(`;
the lazy group 2 with its surrounding `\s*` captures, stripped, the text
strictly before the first `)` (no match when no `)` follows). -/
def matchNameArgs (s : String) : Option (String × String) :=
  let cs := s.data
  let word := cs.takeWhile wordC
  let rest := cs.drop word.length
  match word, rest with
  | [], _ => none
  | _, '(' :: rest2 =>
    if rest2.any (· == ')') then
      some (⟨word⟩, ⟨stripL (rest2.takeWhile (· != ')'))⟩)
    else none
  | _, _ => none

/-- One line of a `parse_data_type_file` block: the three recognised labelled
prefixes update the entry, any other line is ignored; a later occurrence
overwrites an earlier one. -/
def dataTypeLine (e : Record) (line0 : String) : Record :=
  let line := pyStrip line0
  if pyStarts line "Description:" then
    { e with description := pyStrip (pyRemove line "Description:") }
  else if pyStarts line "Definition type:" then
    { e with definition_type := some (pyStrip (pyRemove line "Definition type:")) }
  else if pyStarts line "Return type:" then
    { e with return_type := some (pyStrip (pyRemove line "Return type:")) }
  else e

/-- One block of `parse_data_type_file`: the entry dict built from the block's
lines (declaration line first, then the labelled lines). -/
def dataTypeEntry (lines : List String) : Record :=
  let firstLine := pyStrip (lines.headD "")
  let base : Record :=
    { name := firstLine, description := "", type := "data_type",
      definition_type := some "", return_type := some "", args := [] }
  let base :=
    match matchNameArgs firstLine with
    | some (n, argsStr) =>
      { base with name := n,
                  args := if argsStr != "" then (pySplit argsStr ",").map pyStrip else [] }
    | none => base
  (lines.drop 1).foldl dataTypeLine base

/-- `parse_data_type_file` from `scripts/convert_data.py` (the delimiter-block
parser); reading the file is abstracted to its text. -/
def parseDataTypeFile (content : String) : List Record :=
  (pySplit content "-----------------------\n").filterMap (fun item0 =>
    let item := pyStrip item0
    if item == "" then none
    else
      let entry := dataTypeEntry (pySplit item "\n")
      if entry.name != "" then some entry else none)

/-- Worker splitting on the heading regex `\n##\s+` exactly as `re.split`
does: leftmost non-overlapping matches, the greedy `\s+` consuming the maximal
whitespace run.  Same fuel convention as `splitOnGo`. -/
def splitHeadingGo : Nat → List Char → List Char → List (List Char)
  | _, [], acc => [acc.reverse]
  | 0, l, acc => [acc.reverse ++ l]
  | fuel + 1, c :: cs, acc =>
    match c, cs with
    | '\n', '#' :: '#' :: d :: cs2 =>
      if pyWs d then acc.reverse :: splitHeadingGo fuel ((d :: cs2).dropWhile pyWs) []
      else splitHeadingGo fuel ('#' :: '#' :: d :: cs2) ('\n' :: acc)
    | _, _ => splitHeadingGo fuel cs (c :: acc)

/-- `re.split(r'\n##\s+', content)`. -/
def splitHeading (l : List Char) : List (List Char) := splitHeadingGo l.length l []

/-- One heading block of `parse_markdown_log_file`: the two recognised bold
labels become scope/target lists; other non-empty, non-label lines accumulate
into the description.  The record's `type` stays the literal `'effect'` set
at initialisation (the source comment announces it "will be overwritten", but
no code does). -/
def markdownLine (acc : Record × List String) (line0 : String) : Record × List String :=
  let line := pyRstrip line0
  if pyStarts line "**Supported Scopes**:" then
    let items := pySplit (pyStrip (pyRemove line "**Supported Scopes**:")) ","
    let scopes := items.filterMap (fun s =>
      let s1 := pyStrip s; if s1 != "" then some s1 else none)
    ({ acc.1 with supported_scopes := scopes }, acc.2)
  else if pyStarts line "**Supported Targets**:" then
    let items := pySplit (pyStrip (pyRemove line "**Supported Targets**:")) ","
    let targets := items.filterMap (fun s =>
      let s1 := pyStrip s; if s1 != "" then some s1 else none)
    ({ acc.1 with supported_targets := targets }, acc.2)
  else if (line != "") && !(pyStarts line "**") then (acc.1, acc.2 ++ [line])
  else acc

/-- One heading block of `parse_markdown_log_file` assembled from its body
lines (see `markdownLine`), the accumulated description lines newline-joined
and stripped at the end. -/
def markdownEntry (name : String) (lines : List String) : Record :=
  let init : Record := { name := name, description := "", type := "effect" }
  let step := lines.foldl markdownLine (init, [])
  { step.1 with description := pyStrip ⟨joinWithL ['\n'] (step.2.map String.data)⟩ }

/-- `parse_markdown_log_file` from `scripts/convert_data.py` (the
heading-block parser). -/
def parseMarkdownLogFile (content : String) : List Record :=
  if !containsSubL ['#', '#'] content.data then []
  else
    ((splitHeading content.data).map (fun cs => (⟨cs⟩ : String))).filterMap (fun item =>
      if pyStrip item == "" then none
      else
        let lines := pySplit item "\n"
        let name := pyStrip (lines.headD "")
        if name == "" then none
        else
          let entry := markdownEntry name (lines.drop 1)
          if entry.name != "" then some entry else none)

/-- Python `re.match(r'Tag:\s*([^,]+),\s*Categories:\s*(.*)', line)` from
`parse_modifier_log_file`, reduced to its effective semantics: the line must
start with `Tag:`; at least one character (possibly whitespace, after the
backtrackable `\s*`) must stand before the first comma; after that comma and
optional whitespace the literal `Categories:` must follow.  The caller
immediately strips both captured groups, and that stripping is folded in
here: the first component is group 1 stripped, the second is group 2
stripped. -/
def matchTagCategories (line : String) : Option (String × String) :=
  let cs := line.data
  if startsL ['T', 'a', 'g', ':'] cs then
    let u := cs.drop 4
    let p := u.takeWhile (· != ',')
    if p.length == u.length || p.length == 0 then none
    else
      let v := (u.drop (p.length + 1)).dropWhile pyWs
      if startsL ['C', 'a', 't', 'e', 'g', 'o', 'r', 'i', 'e', 's', ':'] v then
        some (⟨stripL p⟩, ⟨stripL (v.drop 11)⟩)
      else none
  else none

/-- `parse_modifier_log_file` from `scripts/convert_data.py` (the line-tag
parser); `readlines` plus per-line `strip` is modelled by splitting on
newlines. -/
def parseModifierLogFile (content : String) : List Record :=
  (pySplit content "\n").filterMap (fun line0 =>
    let line := pyStrip line0
    if line == "" || pyStarts line "Printing" then none
    else
      match matchTagCategories line with
      | none => none
      | some (name, categoriesStr) =>
        let categories := (pySplit categoriesStr ",").filterMap (fun c =>
          let c1 := pyStrip c
          if (c1 != "") && (c1 != "All") then some c1 else none)
        some { name := name, description := "", categories := categories, type := "modifier" })

/-- `parse_log_file` from `scripts/convert_data.py`: parser dispatch on the
file's base name (`Path(file_path).stem`); reading is abstracted to the pair
(stem, text). -/
def parseLogFile (stem : String) (content : String) : List Record :=
  if stem == "modifiers" then parseModifierLogFile content
  else parseMarkdownLogFile content

/-- Concatenated map: the nested `for` loops that collect matches into a
`results` list. -/
def listFlatMap (f : α → List β) : List α → List β
  | [] => []
  | x :: xs => f x ++ listFlatMap f xs

/-- `b2j` of `difflib.SequenceMatcher` with `isjunk=None`: the ascending list
of positions of a character in the second string, with the autojunk rule
(when the string has length at least 200, characters occurring more than
`n / 100 + 1` times are dropped from the map). -/
def b2j (b : List Char) (c : Char) : List Nat :=
  let idxs := (List.range b.length).filter (fun j => b[j]? == some c)
  if 200 ≤ b.length ∧ b.length / 100 + 1 < idxs.length then [] else idxs

/-- One row of the `find_longest_match` dynamic programme: fold over the
positions of `a[i]` in `b` (window-filtered: `continue` below `blo`, `break`
at `bhi`, the positions being ascending), threading the fresh `newj2len` dict
(as a function) and the best block.  Python reads `j2len.get(j-1, 0)`, where
`j-1` is `-1` when `j = 0` and hence absent; the `j == 0` guard keeps `Nat`
subtraction from aliasing that lookup to index `0`. -/
def flmRow (js : List Nat) (blo bhi i : Nat) (j2len : Nat → Nat)
    (best : Nat × Nat × Nat) : (Nat → Nat) × (Nat × Nat × Nat) :=
  (js.filter (fun j => decide (blo ≤ j ∧ j < bhi))).foldl
    (fun acc j =>
      let k := (if j == 0 then 0 else j2len (j - 1)) + 1
      let newj2len := fun x => if x == j then k else acc.1 x
      let best1 := if acc.2.2.2 < k then (i + 1 - k, j + 1 - k, k) else acc.2
      (newj2len, best1))
    ((fun _ => 0), best)

/-- The left extension loop of `find_longest_match`
(`while besti > alo and bestj > blo and a[besti-1] == b[bestj-1]`),
structurally recursive on `besti`.  The `isSome` conjunct only rules out the
out-of-range case `none = none`, which Python's invariants exclude. -/
def extendLeft (a b : List Char) (alo blo : Nat) : Nat → Nat → Nat → Nat × Nat × Nat
  | 0, bestj, bestsize => (0, bestj, bestsize)
  | besti + 1, bestj, bestsize =>
    if alo < besti + 1 ∧ blo < bestj ∧ (a[besti]?).isSome ∧ a[besti]? = b[bestj - 1]? then
      extendLeft a b alo blo besti (bestj - 1) (bestsize + 1)
    else (besti + 1, bestj, bestsize)

/-- The right extension loop of `find_longest_match`; the fuel bounds the
remaining iterations (`ahi` is always enough, the loop stopping before
`besti + bestsize` reaches `ahi`). -/
def extendRight (a b : List Char) (ahi bhi besti bestj : Nat) : Nat → Nat → Nat
  | 0, bestsize => bestsize
  | fuel + 1, bestsize =>
    if besti + bestsize < ahi ∧ bestj + bestsize < bhi ∧
        (a[besti + bestsize]?).isSome ∧ a[besti + bestsize]? = b[bestj + bestsize]? then
      extendRight a b ahi bhi besti bestj fuel (bestsize + 1)
    else bestsize

/-- `SequenceMatcher.find_longest_match` on the window
`a[alo:ahi] × b[blo:bhi]`.  With `isjunk=None` the `bjunk` set is empty, so
the two junk-extension loops of the source never execute and only the plain
extension loops appear. -/
def findLongestMatch (a b : List Char) (alo ahi blo bhi : Nat) : Nat × Nat × Nat :=
  let fold := (List.range' alo (ahi - alo)).foldl
    (fun (st : (Nat → Nat) × (Nat × Nat × Nat)) i =>
      match a[i]? with
      | some ai => flmRow (b2j b ai) blo bhi i st.1 st.2
      | none => ((fun _ => 0), st.2))
    ((fun _ => 0), (alo, blo, 0))
  let best := fold.2
  let e := extendLeft a b alo blo best.1 best.2.1 best.2.2
  (e.1, e.2.1, extendRight a b ahi bhi e.1 e.2.1 ahi e.2.2)

/-- Total size of the matching blocks: `get_matching_blocks` recurses on the
windows left and right of each longest match, and only the summed block sizes
feed the ratio.  The fuel bounds the recursion depth; the initial
`a.length + b.length + 1` always suffices, each level strictly shrinking the
window. -/
def mbSumGo (a b : List Char) : Nat → Nat → Nat → Nat → Nat → Nat
  | 0, _, _, _, _ => 0
  | fuel + 1, alo, ahi, blo, bhi =>
    let m := findLongestMatch a b alo ahi blo bhi
    let i := m.1
    let j := m.2.1
    let k := m.2.2
    if k == 0 then 0
    else
      k + (if alo < i ∧ blo < j then mbSumGo a b fuel alo i blo j else 0)
        + (if i + k < ahi ∧ j + k < bhi then mbSumGo a b fuel (i + k) ahi (j + k) bhi else 0)

/-- Total matched characters between the two full strings. -/
def mbSum (a b : List Char) : Nat :=
  mbSumGo a b (a.length + b.length + 1) 0 a.length 0 b.length

/-- `SequenceMatcher(None, a, b).ratio()`: `2*M/T` with `M` the total matched
characters and `T` the combined length (`1.0` when both strings are empty).
The float arithmetic of the source is modelled exactly in `ℚ`, the quotient
written with `mkRat` (which is the rational `2*M/T`). -/
def ratioOf (a b : String) : ℚ :=
  let m := mbSum a.data b.data
  let t := a.data.length + b.data.length
  if t == 0 then 1 else mkRat (2 * (m : Int)) t

/-- The loaded data of `DataHandler` / `DataSearcher`: the name index
(`index.json`, an insertion-ordered dict modelled as an association list with
distinct keys), the flat collection (`all_data.json`) and the per-kind lists
read from the per-category JSON files. -/
structure Store where
  index : List (String × List Record)
  all_data : List Record
  modifiers : List Record := []
  effects : List Record := []
  triggers : List Record := []
  event_targets : List Record := []
  deriving DecidableEq

/-- Dict lookup in the name index (`self.index[k]`, and `k in self.index`
through `Option.isSome`). -/
def idxFind (idx : List (String × List Record)) (key : String) :
    Option (List Record) :=
  match idx with
  | [] => none
  | kv :: rest => if kv.1 == key then some kv.2 else idxFind rest key

/-- The sort key of the fuzzy results (`x['similarity']`; every record sorted
there has just been given the field, so the default never fires). -/
def simOf (r : Record) : ℚ := r.similarity.getD 0

/-- The order of `results.sort(key=lambda x: x['similarity'], reverse=True)`:
non-increasing similarity. -/
def simGE (x y : Record) : Prop := simOf y ≤ simOf x

instance : DecidableRel simGE := fun x y => inferInstanceAs (Decidable (simOf y ≤ simOf x))

instance : IsTotal Record simGE := ⟨fun x y => le_total (simOf y) (simOf x)⟩

instance : IsTrans Record simGE := ⟨fun _ _ _ h1 h2 => le_trans h2 h1⟩

/-- Python's `list.sort` is stable, and a stable sort's output is uniquely
determined by the ordering, so insertion sort with the same (descending,
tie-preserving) order computes the same list. -/
def pySortDesc (l : List Record) : List Record := List.insertionSort simGE l

/-- `DataHandler.search_by_name`: an exact hit on the lowercased name
short-circuits (sliced to `limit`); otherwise, when `fuzzy`, every index key
is scored against the lowercased query, keys with ratio strictly above `0.6`
contribute copies of their records carrying the score in `similarity`, and
the copies are sorted by descending similarity and sliced to `limit` (the
Python default for `limit` is 20). -/
def handlerSearchByName (st : Store) (name : String) (fuzzy : Bool) (limit : Int) :
    List Record :=
  let nameLower := pyLower name
  match idxFind st.index nameLower with
  | some entries => pySlice entries limit
  | none =>
    if !fuzzy then []
    else
      let results := listFlatMap (fun kv =>
        let similarity := ratioOf nameLower kv.1
        if mkRat 3 5 < similarity then
          kv.2.map (fun e => { e with similarity := some similarity })
        else []) st.index
      pySlice (pySortDesc results) limit

/-- `DataSearcher.search_by_name`, with the in-place mutation
`entry['similarity'] = similarity` made explicit: besides the result list the
function returns the index as it stands after the call — on the fuzzy path
the stored entries of every key scoring strictly above `0.6` have had their
`similarity` field written (the results alias those same entries), and the
result list is sorted descending and truncated to the literal 20. -/
def searcherSearchByName (idx : List (String × List Record)) (name : String)
    (fuzzy : Bool) : List Record × List (String × List Record) :=
  let nameLower := pyLower name
  match idxFind idx nameLower with
  | some entries => (entries, idx)
  | none =>
    if !fuzzy then ([], idx)
    else
      let annotated := idx.map (fun kv =>
        let similarity := ratioOf nameLower kv.1
        if mkRat 3 5 < similarity then
          ((kv.1, kv.2.map (fun e => { e with similarity := some similarity })), true)
        else (kv, false))
      let results := listFlatMap (fun p => if p.2 then p.1.2 else []) annotated
      ((pySortDesc results).take 20, annotated.map (·.1))

/-- `DataSearcher.search_by_regex`'s dependence on Python's `re` module,
taken abstractly: a compile step that either fails (`re.error`) or yields a
matcher standing for `regex.search` under `re.IGNORECASE`. -/
structure RegexEngine where
  compile : String → Option (String → Bool)

/-- `DataSearcher.search_by_regex`: the `try/except re.error` around the
compile becomes the `Option`; on failure the empty list is returned,
otherwise the flat collection is filtered by matches on `name`. -/
def searchByRegex (eng : RegexEngine) (allData : List Record) (pat : String) :
    List Record :=
  match eng.compile pat with
  | none => []
  | some m => allData.filter (fun e => m e.name)

/-- `DataSearcher.search_by_type`: case-insensitive equality against
`e.get('return_type', '')`. -/
def searchByType (allData : List Record) (returnType : String) : List Record :=
  allData.filter (fun e => pyLower (e.return_type.getD "") == pyLower returnType)

/-- `DataSearcher.search_by_scopes`: case-insensitive membership of the query
in `supported_scopes`, optionally restricted to an entry type
(case-insensitive equality against `e.get('type', '')`). -/
def searchByScopes (allData : List Record) (scope : String)
    (entryType : Option String) : List Record :=
  let scopeLower := pyLower scope
  allData.filter (fun e =>
    e.supported_scopes.any (fun s => pyLower s == scopeLower) &&
      match entryType with
      | none => true
      | some t => pyLower e.type == pyLower t)

/-- `DataSearcher.search_by_category`: case-insensitive equality on
`category` (store-built records always carry the key, making the subscript
total here). -/
def searchByCategory (allData : List Record) (category : String) : List Record :=
  allData.filter (fun e => pyLower e.category == pyLower category)

/-- `DataSearcher.search_by_description`: case-insensitive substring of the
keyword in the description. -/
def searchByDescription (allData : List Record) (keyword : String) : List Record :=
  allData.filter (fun e => pyIn (pyLower keyword) (pyLower e.description))

/-- The `return_type` step of `advanced_search`: its list comprehension uses
the subscript `e['return_type']`, which raises `KeyError` on a record without
the key; `Except` models the raise. -/
def advancedReturnType (returnType : String) : List Record → Except Unit (List Record)
  | [] => Except.ok []
  | e :: rest =>
    match e.return_type with
    | none => Except.error ()
    | some v =>
      match advancedReturnType returnType rest with
      | Except.error u => Except.error u
      | Except.ok tail =>
        Except.ok (if pyLower v == pyLower returnType then e :: tail else tail)

/-- `DataSearcher.advanced_search(**kwargs)`: successive narrowing of a copy
of the flat collection by the `name` (membership of the record's name in the
fuzzy step's name set), `return_type`, `category` and `description` keyword
arguments.  A `kind` keyword is accepted by `**kwargs` but never consulted by
the body, hence the unused final parameter.  (The fuzzy step also mutates the
searcher's index — see `searcherSearchByName` — which does not affect
`all_data`, its record objects being distinct.) -/
def advancedSearch (st : Store) (name returnType category description _kind : Option String) :
    Except Unit (List Record) :=
  let results := st.all_data
  let results :=
    match name with
    | some n =>
      let nameResults := (searcherSearchByName st.index n true).1
      results.filter (fun e => nameResults.any (fun x => x.name == e.name))
    | none => results
  match (match returnType with
         | some rt => advancedReturnType rt results
         | none => Except.ok results) with
  | Except.error u => Except.error u
  | Except.ok results1 =>
    let results2 :=
      match category with
      | some c => results1.filter (fun e => pyLower e.category == pyLower c)
      | none => results1
    let results3 :=
      match description with
      | some d => results2.filter (fun e => pyIn (pyLower d) (pyLower e.description))
      | none => results2
    Except.ok results3

/-- `DataHandler.get_data_by_type`: records whose `type` equals the query,
sliced to `limit`. -/
def getDataByType (st : Store) (dataType : String) (limit : Int) : List Record :=
  pySlice (st.all_data.filter (fun e => e.type == dataType)) limit

/-- `DataHandler.get_data_by_scope`: exact, case-sensitive membership of the
query in `item.get('scopes', [])` — the `'scopes'` key, which no parser-built
record carries — sliced to `limit`. -/
def getDataByScope (st : Store) (scope : String) (limit : Int) : List Record :=
  pySlice (st.all_data.filter (fun e => e.scopes.contains scope)) limit

/-- The shared body of `DataHandler.search_modifiers` / `search_effects` /
`search_triggers` / `search_event_targets`: case-insensitive substring match
of the query against name or description, sliced to `limit`. -/
def searchEntriesByText (entries : List Record) (query : String) (limit : Int) :
    List Record :=
  let q := pyLower query
  pySlice (entries.filter (fun e =>
    pyIn q (pyLower e.name) || pyIn q (pyLower e.description))) limit

/-- `DataHandler.search_modifiers`. -/
def searchModifiers (st : Store) (query : String) (limit : Int) : List Record :=
  searchEntriesByText st.modifiers query limit

/-- `DataHandler.search_effects`. -/
def searchEffects (st : Store) (query : String) (limit : Int) : List Record :=
  searchEntriesByText st.effects query limit

/-- `DataHandler.search_triggers`. -/
def searchTriggers (st : Store) (query : String) (limit : Int) : List Record :=
  searchEntriesByText st.triggers query limit

/-- `DataHandler.search_event_targets`. -/
def searchEventTargets (st : Store) (query : String) (limit : Int) : List Record :=
  searchEntriesByText st.event_targets query limit

/-- A triggers.log-style source: a stray first line, then one heading entry. -/
def c1Src : String := "x\n## always\nA trigger.\n"

/-- A record supporting scope `country`, shaped as the markdown parser and
store builder produce it: the scope list sits in `supported_scopes` and there
is no `scopes` key. -/
def c2Rec : Record :=
  { name := "add_gold", description := "Grants gold.", type := "effect",
    category := "effects", supported_scopes := ["country"] }

/-- A store holding just `c2Rec`. -/
def c2Store : Store := { index := [("add_gold", [c2Rec])], all_data := [c2Rec] }

/-- A heading-block source whose single entry opens the file. -/
def c3WitSrc : String := "## add_gold\nGrants gold.\n"

/-- The record the heading-block parser yields for `c3WitSrc`. -/
def c3WitRec : Record :=
  { name := "## add_gold", description := "Grants gold.", type := "effect" }

/-- The spec's end-to-end heading-block scenario text. -/
def c4Src : String := "## add_gold\n**Supported Scopes**: country, province\nGrants gold.\n"

/-- The record the heading-block parser actually yields for `c4Src`. -/
def c4Parsed : Record :=
  { name := "## add_gold", description := "Grants gold.", type := "effect",
    supported_scopes := ["country", "province"] }

/-- Forget the transient `similarity` annotation of a record. -/
def clearSim (r : Record) : Record := { r with similarity := none }

/-- Forget every `similarity` annotation of an index. -/
def stripIdx (idx : List (String × List Record)) : List (String × List Record) :=
  idx.map (fun kv => (kv.1, kv.2.map clearSim))

/-- A stored record without similarity annotation. -/
def c5Rec : Record := { name := "abc", type := "effect" }

/-- A one-key index holding `c5Rec`. -/
def c5Idx : List (String × List Record) := [("abc", [c5Rec])]

/-- First of two records of kind `effect`. -/
def c6Rec1 : Record := { name := "a1", type := "effect" }

/-- Second of two records of kind `effect`. -/
def c6Rec2 : Record := { name := "a2", type := "effect" }

/-- A store whose flat collection holds the two effect records. -/
def c6Store : Store := { index := [], all_data := [c6Rec1, c6Rec2] }

/-- An engine on which every pattern fails to compile (as an unbalanced
parenthesis does for Python's `re`). -/
def c8FailEngine : RegexEngine := ⟨fun _ => none⟩

/-- A stored record without similarity annotation, indexed under `abc`. -/
def c10Rec : Record := { name := "abc", type := "effect" }

/-- A store with the single index key `abc`. -/
def c10Store : Store := { index := [("abc", [c10Rec])], all_data := [c10Rec] }

/-- A record stored under the key `abcd`. -/
def c9RecA : Record := { name := "abcd", type := "effect" }

/-- A record stored under the key `abce`. -/
def c9RecB : Record := { name := "abce", type := "effect" }

/-- A two-key store; the query `abcf` misses both keys exactly but scores
`0.75` against each. -/
def c9Store : Store :=
  { index := [("abcd", [c9RecA]), ("abce", [c9RecB])], all_data := [c9RecA, c9RecB] }

/-- A modifier record in category `army`. -/
def c7Mod : Record := { name := "m1", type := "modifier", category := "army" }

/-- An effect record in the same category. -/
def c7Eff : Record := { name := "e1", type := "effect", category := "army" }

/-- A store holding both records. -/
def c7Store : Store := { index := [], all_data := [c7Mod, c7Eff] }

/-! ### Theorems -/

theorem pySlice_sublist (l : List α) (n : Int) : (pySlice l n).Sublist l := by
  unfold pySlice
  split <;> exact List.take_sublist _ _

theorem mem_of_mem_pySlice {l : List α} {n : Int} {a : α}
    (h : a ∈ pySlice l n) : a ∈ l :=
  (pySlice_sublist l n).subset h

theorem pySlice_length_le {n : Int} (l : List α) (h : 0 ≤ n) :
    (pySlice l n).length ≤ n.toNat := by
  unfold pySlice
  rw [if_pos h]
  exact List.length_take_le _ _

theorem pySlice_zero (l : List α) : pySlice l 0 = [] := by
  simp [pySlice]

theorem mem_listFlatMap {f : α → List β} {l : List α} {b : β} :
    b ∈ listFlatMap f l ↔ ∃ a ∈ l, b ∈ f a := by
  induction l with
  | nil => simp [listFlatMap]
  | cons x xs ih => simp [listFlatMap, ih]

theorem idxFind_mem {idx : List (String × List Record)} {k : String}
    {l : List Record} (h : idxFind idx k = some l) : (k, l) ∈ idx := by
  induction idx with
  | nil => simp [idxFind] at h
  | cons kv rest ih =>
    rw [idxFind] at h
    by_cases hk : (kv.1 == k) = true
    · rw [if_pos hk] at h
      obtain rfl : kv.2 = l := by simpa using h
      obtain rfl : kv.1 = k := by simpa using hk
      exact List.mem_cons_self _ _
    · rw [if_neg hk] at h
      exact List.mem_cons_of_mem _ (ih h)

theorem foldl_invariant {f : β → α → β} {P : β → Prop}
    (hf : ∀ b a, P b → P (f b a)) : ∀ (l : List α) (b : β), P b → P (l.foldl f b)
  | [], _, h => h
  | a :: l, b, h => foldl_invariant hf l (f b a) (hf b a h)

theorem dataTypeLine_type (e : Record) (a : String) :
    (dataTypeLine e a).type = e.type := by
  dsimp only [dataTypeLine]
  split_ifs <;> rfl

theorem dataTypeEntry_type (lines : List String) :
    (dataTypeEntry lines).type = "data_type" := by
  unfold dataTypeEntry
  apply foldl_invariant (P := fun e => e.type = "data_type")
    (fun e a h => (dataTypeLine_type e a).trans h)
  split <;> rfl

theorem markdownLine_fst_type (acc : Record × List String) (a : String) :
    ((markdownLine acc a).1).type = acc.1.type := by
  dsimp only [markdownLine]
  split_ifs <;> rfl

theorem markdownLine_fst_name (acc : Record × List String) (a : String) :
    ((markdownLine acc a).1).name = acc.1.name := by
  dsimp only [markdownLine]
  split_ifs <;> rfl

theorem markdownEntry_type (name : String) (lines : List String) :
    (markdownEntry name lines).type = "effect" := by
  unfold markdownEntry
  dsimp only
  exact foldl_invariant (P := fun acc : Record × List String => acc.1.type = "effect")
    (fun b a h => (markdownLine_fst_type b a).trans h) lines
    ({ name := name, description := "", type := "effect" }, []) rfl

theorem markdownEntry_name (name : String) (lines : List String) :
    (markdownEntry name lines).name = name := by
  unfold markdownEntry
  dsimp only
  exact foldl_invariant (P := fun acc : Record × List String => acc.1.name = name)
    (fun b a h => (markdownLine_fst_name b a).trans h) lines
    ({ name := name, description := "", type := "effect" }, []) rfl

/-- C1: records parsed from `triggers.log` do NOT get the file-selected kind
`trigger` — `parse_log_file` dispatches the file to the heading-block parser,
which hard-wires the kind tag `effect` into every record (no caller-supplied
tag exists, although the source comment says the default "will be
overwritten"). -/
theorem c1_trigger_records_kind_is_effect :
    (parseLogFile "triggers" c1Src).map Record.type = ["effect", "effect"] ∧
      ("effect" : String) ≠ "trigger" := by
  exact ⟨by decide, by decide⟩

/-- C2: scope search diverges between the two implementations —
`DataHandler.get_data_by_scope` misses the record whose `supported_scopes`
holds the queried scope, because it reads the non-existent `scopes` key and
compares case-sensitively, while `DataSearcher.search_by_scopes` finds the
record case-insensitively (kind filter included), as the claim describes. -/
theorem c2_get_data_by_scope_divergence :
    getDataByScope c2Store "country" 20 = [] ∧
      searchByScopes c2Store.all_data "Country" (some "effect") = [c2Rec] ∧
      c2Rec.supported_scopes.contains "country" = true := by
  exact ⟨by decide, by decide, by decide⟩

/-- C3 counterexample: a line whose tag field is only whitespace still
matches the line-tag parser's regex (the backtrackable `\s*` leaves the
whitespace to the `[^,]+` group), so a record with EMPTY name is emitted. -/
theorem c3_counterexample :
    (parseModifierLogFile "Tag: , Categories: military\n").map Record.name = [""] := by
  decide

/-- C3 (amended): every record of the delimiter-block and heading-block
parsers has a non-empty name, and every parser stamps its fixed kind — one of
the five known tags — on all records (`data_type`, `effect` and `modifier`
respectively); only the line-tag parser can emit an empty name. -/
theorem c3_parser_invariants (content : String) (r : Record) :
    (r ∈ parseDataTypeFile content → r.name ≠ "" ∧ r.type = "data_type") ∧
    (r ∈ parseMarkdownLogFile content → r.name ≠ "" ∧ r.type = "effect") ∧
    (r ∈ parseModifierLogFile content → r.type = "modifier") := by
  refine ⟨?_, ?_, ?_⟩
  · intro hmem
    rw [parseDataTypeFile] at hmem
    obtain ⟨item0, -, hsome⟩ := List.mem_filterMap.mp hmem
    dsimp only at hsome
    split at hsome
    · cases hsome
    · split at hsome
      · rename_i hname
        obtain rfl : dataTypeEntry _ = r := Option.some.inj hsome
        exact ⟨by simpa using hname, dataTypeEntry_type _⟩
      · cases hsome
  · intro hmem
    rw [parseMarkdownLogFile] at hmem
    split at hmem
    · cases hmem
    · obtain ⟨item, -, hsome⟩ := List.mem_filterMap.mp hmem
      dsimp only at hsome
      split at hsome
      · cases hsome
      · split at hsome
        · cases hsome
        · split at hsome
          · rename_i hname
            obtain rfl : markdownEntry _ _ = r := Option.some.inj hsome
            exact ⟨by simpa using hname, markdownEntry_type _ _⟩
          · cases hsome
  · intro hmem
    rw [parseModifierLogFile] at hmem
    obtain ⟨line0, -, hsome⟩ := List.mem_filterMap.mp hmem
    dsimp only at hsome
    split at hsome
    · cases hsome
    · split at hsome
      · cases hsome
      · rename_i nm cats hmatch
        obtain rfl : (_ : Record) = r := Option.some.inj hsome
        rfl

theorem c3_parser_invariants_witness : c3WitRec.name ≠ "" ∧ c3WitRec.type = "effect" :=
  (c3_parser_invariants c3WitSrc c3WitRec).2.1 (by decide)

/-- C4 counterexample: parsing the scenario text does not yield a record
named `add_gold` — the split pattern `\n##\s+` needs a newline in front of
`##`, so the marker of a heading that opens the file stays glued to the
name. -/
theorem c4_counterexample :
    (parseMarkdownLogFile c4Src).map Record.name ≠ ["add_gold"] := by
  decide

/-- C4 (amended): the scenario yields exactly one record with
`supported_scopes = ["country", "province"]` and description `Grants gold.`,
but its name is `## add_gold`, heading marker included. -/
theorem c4_heading_block_scenario : parseMarkdownLogFile c4Src = [c4Parsed] := by
  decide

/-- C5 counterexample: the fuzzy path of `DataSearcher.search_by_name` writes
the similarity score into the stored index entries themselves — after the
call the loaded index differs from what it was before the call. -/
theorem c5_counterexample : (searcherSearchByName c5Idx "abd" true).2 ≠ c5Idx := by
  decide

/-- C5 (amended): `DataSearcher.search_by_name` mutates at most the
`similarity` fields of the stored index entries, and only on its fuzzy path
(an exact hit or `fuzzy=False` leaves the index untouched), while every
record returned by `DataHandler.search_by_name` agrees, up to the transient
`similarity` annotation, with an entry stored in the index, which stays in
place. -/
theorem c5_store_mutation (idx : List (String × List Record)) (st : Store)
    (q : String) (fz : Bool) (lim : Int) :
    stripIdx (searcherSearchByName idx q fz).2 = stripIdx idx ∧
    ((idxFind idx (pyLower q)).isSome ∨ fz = false →
      (searcherSearchByName idx q fz).2 = idx) ∧
    (∀ r ∈ handlerSearchByName st q fz lim,
      ∃ kv ∈ st.index, ∃ e ∈ kv.2, clearSim r = clearSim e) := by
  refine ⟨?_, ?_, ?_⟩
  · rw [searcherSearchByName]
    cases hfind : idxFind idx (pyLower q) with
    | some entries => rfl
    | none =>
      cases fz with
      | false => rfl
      | true =>
        clear hfind
        simp only [Bool.not_true, Bool.false_eq_true, if_false]
        rw [stripIdx, stripIdx, List.map_map, List.map_map]
        refine List.map_congr_left (fun kv _ => ?_)
        dsimp only [Function.comp]
        split
        · dsimp only
          rw [List.map_map]
          refine congrArg (Prod.mk kv.1) ?_
          exact List.map_congr_left (fun e _ => rfl)
        · rfl
  · intro hcase
    rw [searcherSearchByName]
    cases hfind : idxFind idx (pyLower q) with
    | some entries => rfl
    | none =>
      cases fz with
      | false => rfl
      | true =>
        rcases hcase with h1 | h2
        · rw [hfind] at h1
          simp at h1
        · cases h2
  · intro r hr
    rw [handlerSearchByName] at hr
    cases hfind : idxFind st.index (pyLower q) with
    | some entries =>
      rw [hfind] at hr
      dsimp only at hr
      exact ⟨(pyLower q, entries), idxFind_mem hfind, r, mem_of_mem_pySlice hr, rfl⟩
    | none =>
      rw [hfind] at hr
      cases fz with
      | false => simp at hr
      | true =>
        simp only [Bool.not_true, Bool.false_eq_true, if_false] at hr
        have hr1 := mem_of_mem_pySlice hr
        rw [pySortDesc] at hr1
        rw [List.mem_insertionSort] at hr1
        obtain ⟨kv, hkv, hrkv⟩ := mem_listFlatMap.mp hr1
        split at hrkv
        · obtain ⟨e, he, rfl⟩ := List.mem_map.mp hrkv
          exact ⟨kv, hkv, e, he, rfl⟩
        · cases hrkv

theorem c5_store_mutation_witness :
    (searcherSearchByName c5Idx "zz" false).2 = c5Idx :=
  (c5_store_mutation c5Idx { index := [], all_data := [] } "zz" false 0).2.1 (Or.inr rfl)

/-- C6 counterexample: with the negative limit `-1` the slice `[:limit]`
drops one element from the end instead of yielding the empty list, so the
search by kind returns a non-empty result for a limit below zero. -/
theorem c6_counterexample : getDataByType c6Store "effect" (-1) ≠ [] := by
  decide

/-- The `length_le` half of the limit contract for the handler name lookup. -/
theorem handlerSearchByName_length_le (st : Store) (q : String) (fz : Bool)
    {lim : Int} (h : 0 ≤ lim) :
    (handlerSearchByName st q fz lim).length ≤ lim.toNat := by
  rw [handlerSearchByName]
  cases idxFind st.index (pyLower q) with
  | some entries => exact pySlice_length_le _ h
  | none =>
    cases fz with
    | false => simp
    | true => exact pySlice_length_le _ h

/-- C6 (amended): every limited search operation returns at most `limit`
records when `limit` is non-negative, and returns nothing at `limit = 0`; a
negative limit instead follows Python slice semantics (all matches but the
last `|limit|`) and need not yield an empty result. -/
theorem c6_limits (st : Store) (q dt sc : String) (fz : Bool) (lim : Int) :
    (0 ≤ lim →
      (handlerSearchByName st q fz lim).length ≤ lim.toNat ∧
        (getDataByType st dt lim).length ≤ lim.toNat ∧
        (getDataByScope st sc lim).length ≤ lim.toNat ∧
        (searchModifiers st q lim).length ≤ lim.toNat ∧
        (searchEffects st q lim).length ≤ lim.toNat ∧
        (searchTriggers st q lim).length ≤ lim.toNat ∧
        (searchEventTargets st q lim).length ≤ lim.toNat) ∧
    (lim = 0 →
      handlerSearchByName st q fz lim = [] ∧
        getDataByType st dt lim = [] ∧
        getDataByScope st sc lim = [] ∧
        searchModifiers st q lim = [] ∧
        searchEffects st q lim = [] ∧
        searchTriggers st q lim = [] ∧
        searchEventTargets st q lim = []) := by
  simp only [getDataByType, getDataByScope, searchModifiers, searchEffects,
    searchTriggers, searchEventTargets, searchEntriesByText]
  constructor
  · intro h
    exact ⟨handlerSearchByName_length_le st q fz h, pySlice_length_le _ h,
      pySlice_length_le _ h, pySlice_length_le _ h, pySlice_length_le _ h,
      pySlice_length_le _ h, pySlice_length_le _ h⟩
  · rintro rfl
    refine ⟨?_, pySlice_zero _, pySlice_zero _, pySlice_zero _, pySlice_zero _,
      pySlice_zero _, pySlice_zero _⟩
    rw [handlerSearchByName]
    cases idxFind st.index (pyLower q) with
    | some entries => exact pySlice_zero _
    | none =>
      cases fz with
      | false => rfl
      | true =>
        simp only [Bool.not_true, Bool.false_eq_true, if_false]
        exact pySlice_zero _

theorem c6_limits_witness :
    (getDataByType c6Store "effect" 1).length ≤ (1 : Int).toNat :=
  ((c6_limits c6Store "a" "effect" "country" true 1).1 (by decide)).2.1

/-- C8: regex-name search never raises: a pattern the engine fails to compile
yields the empty list (the `re.error` handler returns it), and a compiled
pattern yields exactly the records of the flat collection whose name the
case-insensitive matcher accepts. -/
theorem c8_regex_total (eng : RegexEngine) (allData : List Record) (pat : String) :
    (eng.compile pat = none → searchByRegex eng allData pat = []) ∧
    (∀ m, eng.compile pat = some m →
      searchByRegex eng allData pat = allData.filter (fun e => m e.name)) ∧
    (∀ r, r ∈ searchByRegex eng allData pat ↔
      ∃ m, eng.compile pat = some m ∧ r ∈ allData ∧ m r.name = true) := by
  refine ⟨?_, ?_, ?_⟩
  · intro h
    rw [searchByRegex, h]
  · intro m h
    rw [searchByRegex, h]
  · intro r
    rw [searchByRegex]
    cases h : eng.compile pat with
    | none => simp
    | some m => simp [List.mem_filter, and_assoc]

theorem c8_regex_total_witness : searchByRegex c8FailEngine [] "(" = [] :=
  (c8_regex_total c8FailEngine [] "(").1 rfl

/-- C10 counterexample: querying an index key's exact text in different case,
fuzzy flag enabled, returns the stored record via the exact-match path with
no similarity value attached — in particular not with similarity `1.0`. -/
theorem c10_counterexample :
    handlerSearchByName c10Store "ABC" true 20 = [c10Rec] ∧
      c10Rec.similarity ≠ some 1 := by
  exact ⟨by decide, by decide⟩

/-- C10 (amended): a query equal up to case to an index key short-circuits
into the exact-match path — the records stored under the key are returned
exactly as stored (sliced to the limit), the fuzzy machinery never runs, and
no similarity is computed or attached. -/
theorem c10_exact_key_lookup (st : Store) (q : String) (lim : Int)
    (l : List Record) (hhit : idxFind st.index (pyLower q) = some l) :
    handlerSearchByName st q true lim = pySlice l lim ∧
      ∀ r ∈ handlerSearchByName st q true lim, r ∈ l := by
  have h1 : handlerSearchByName st q true lim = pySlice l lim := by
    rw [handlerSearchByName, hhit]
  exact ⟨h1, fun r hr => mem_of_mem_pySlice (h1 ▸ hr)⟩

theorem c10_exact_key_lookup_witness :
    handlerSearchByName c10Store "ABC" true 20 = pySlice [c10Rec] 20 :=
  (c10_exact_key_lookup c10Store "ABC" 20 [c10Rec] (by decide)).1

/-- C9 counterexample: a fuzzy query with the negative limit `-1` returns a
record nonetheless (the Python slice drops one element from the end of the
two matches), so the result length is not at most the limit. -/
theorem c9_counterexample :
    (handlerSearchByName c9Store "abcf" true (-1)).length = 1 ∧
      ¬ ((1 : Int) ≤ -1) := by
  exact ⟨by decide, by decide⟩

/-- C9 (amended): when the exact lookup misses and the fuzzy path serves the
query, every returned record carries as `similarity` the ratio — strictly
above `0.6` — of the lowercased query against the index key the record came
from; the result is sorted by non-increasing similarity; and for a
non-negative limit its length is at most the limit (the Python default being
20).  A negative limit instead follows Python slice semantics. -/
theorem c9_fuzzy_lookup (st : Store) (q : String) (lim : Int)
    (hmiss : idxFind st.index (pyLower q) = none) :
    (∀ r ∈ handlerSearchByName st q true lim,
      ∃ kv ∈ st.index, r.similarity = some (ratioOf (pyLower q) kv.1) ∧
        mkRat 3 5 < ratioOf (pyLower q) kv.1) ∧
    List.Sorted simGE (handlerSearchByName st q true lim) ∧
    (0 ≤ lim → (handlerSearchByName st q true lim).length ≤ lim.toNat) := by
  have hdef : handlerSearchByName st q true lim =
      pySlice (pySortDesc (listFlatMap (fun kv =>
        if mkRat 3 5 < ratioOf (pyLower q) kv.1 then
          kv.2.map (fun e => { e with similarity := some (ratioOf (pyLower q) kv.1) })
        else []) st.index)) lim := by
    rw [handlerSearchByName, hmiss]
    rfl
  rw [hdef]
  refine ⟨?_, ?_, ?_⟩
  · intro r hr
    have hr1 := mem_of_mem_pySlice hr
    rw [pySortDesc, List.mem_insertionSort] at hr1
    obtain ⟨kv, hkv, hrkv⟩ := mem_listFlatMap.mp hr1
    split at hrkv
    · rename_i hcond
      obtain ⟨e, -, rfl⟩ := List.mem_map.mp hrkv
      exact ⟨kv, hkv, rfl, hcond⟩
    · cases hrkv
  · exact List.Pairwise.sublist (pySlice_sublist _ _) (List.sorted_insertionSort simGE _)
  · intro h
    exact pySlice_length_le _ h

theorem c9_fuzzy_lookup_witness :
    (handlerSearchByName c9Store "abcf" true 1).length ≤ (1 : Int).toNat :=
  (c9_fuzzy_lookup c9Store "abcf" 1 (by decide)).2.2 (by decide)

/-- C7 counterexample: on the spec's own example `{kind=modifier,
category=army}`, composite search ignores the kind filter and keeps the
effect record, although the single kind filter (search by kind) excludes it —
so the composite result is not the intersection of the single-filter result
sets. -/
theorem c7_counterexample :
    advancedSearch c7Store none none (some "army") none (some "modifier") =
        Except.ok [c7Mod, c7Eff] ∧
      getDataByType c7Store "modifier" 20 = [c7Mod] ∧ c7Eff ≠ c7Mod := by
  exact ⟨rfl, by decide, by decide⟩

/-- The `return_type` step succeeds exactly on lists whose records all carry
the key, and then filters like the single-filter search by return type. -/
theorem advancedReturnType_ok {l : List Record} {rt : String}
    (h : ∀ r ∈ l, (r.return_type).isSome = true) :
    advancedReturnType rt l =
      Except.ok (l.filter (fun e => pyLower (e.return_type.getD "") == pyLower rt)) := by
  induction l with
  | nil => rfl
  | cons e rest ih =>
    rw [advancedReturnType]
    cases he : e.return_type with
    | none =>
      have := h e (List.mem_cons_self e rest)
      rw [he] at this
      cases this
    | some v =>
      rw [ih (fun r hr => h r (List.mem_cons_of_mem _ hr))]
      rw [List.filter_cons]
      simp [he]

/-- C7 (amended): composite search consults only the `name`, `return_type`,
`category` and `description` filters — a `kind` filter is silently ignored
rather than applied.  Whenever the `return_type` filter is absent or every
record carries the `return_type` key, the call succeeds and returns exactly
the records of the flat collection passing all given filters: name narrowing
reduces to membership in the set of names returned by the fuzzy step, and the
other filters coincide with the corresponding single-filter searches.  (When
a `return_type` filter is given and some record lacks the key, the Python
code instead raises `KeyError`.) -/
theorem c7_composite_intersection (st : Store) (n? rt? c? d? k? : Option String)
    (hrt : rt? = none ∨ ∀ r ∈ st.all_data, (r.return_type).isSome = true) :
    ∃ L, advancedSearch st n? rt? c? d? k? = Except.ok L ∧
      ∀ r, r ∈ L ↔ r ∈ st.all_data ∧
        (∀ n ∈ n?, r.name ∈ (searcherSearchByName st.index n true).1.map Record.name) ∧
        (∀ rt ∈ rt?, r ∈ searchByType st.all_data rt) ∧
        (∀ c ∈ c?, r ∈ searchByCategory st.all_data c) ∧
        (∀ d ∈ d?, r ∈ searchByDescription st.all_data d) := by
  have hnone : rt? = none ∨ ∃ rt, rt? = some rt := by
    cases rt? with
    | none => exact Or.inl rfl
    | some rt => exact Or.inr ⟨rt, rfl⟩
  rcases hnone with rfl | ⟨rt, rfl⟩
  · cases n? <;> cases c? <;> cases d? <;>
      refine ⟨_, rfl, fun r => ?_⟩ <;>
      (simp [advancedSearch, searchByType, searchByCategory, searchByDescription,
        List.mem_filter, List.any_eq_true, List.mem_map, and_assoc]; try tauto)
  · have hall : ∀ r ∈ st.all_data, (r.return_type).isSome = true := by
      rcases hrt with h | h
      · cases h
      · exact h
    cases n? with
    | none =>
      cases c? <;> cases d? <;>
        refine ⟨_, by rw [advancedSearch, advancedReturnType_ok hall], fun r => ?_⟩ <;>
        (simp [searchByType, searchByCategory, searchByDescription,
          List.mem_filter, List.any_eq_true, List.mem_map, and_assoc]; try tauto)
    | some n =>
      have hsome : ∀ r ∈ st.all_data.filter (fun e =>
          ((searcherSearchByName st.index n true).1).any (fun x => x.name == e.name)),
          (r.return_type).isSome = true :=
        fun r hr => hall r (List.mem_filter.mp hr).1
      cases c? <;> cases d? <;>
        refine ⟨_, by rw [advancedSearch, advancedReturnType_ok hsome], fun r => ?_⟩ <;>
        (simp [searchByType, searchByCategory, searchByDescription,
          List.mem_filter, List.any_eq_true, List.mem_map, and_assoc]; try tauto)

theorem c7_composite_intersection_witness :
    ∃ L, advancedSearch c7Store none none (some "army") none none = Except.ok L ∧
      ∀ r, r ∈ L ↔ r ∈ c7Store.all_data ∧
        (∀ n ∈ (none : Option String),
          r.name ∈ (searcherSearchByName c7Store.index n true).1.map Record.name) ∧
        (∀ rt ∈ (none : Option String), r ∈ searchByType c7Store.all_data rt) ∧
        (∀ c ∈ (some "army" : Option String), r ∈ searchByCategory c7Store.all_data c) ∧
        (∀ d ∈ (none : Option String), r ∈ searchByDescription c7Store.all_data d) :=
  c7_composite_intersection c7Store none none (some "army") none none (Or.inl rfl)

